import Mathlib

/-!
Shallow embedding of the Farmvise gamification and challenge-progression
engine: the `User` model's OTP and points methods (models/User.js), the
`Challenge` model's participant and eligibility methods (models/Challenge.js),
and the join/submit route handlers (routes/challenges.js).

Timestamps are modelled as integer milliseconds.  JavaScript numbers on the
paths embedded here are integers (points, balances, counters), except the
challenge `successRate`, which is a genuine quotient and is modelled as `Rat`.
Mongoose documents become Lean structures; schema defaults are separate
definitions; each method or route becomes a pure function, with the mutated
documents returned (routes return `Except` of the typed failure).
-/

/-- Wallet transaction kinds (`wallet.transactions.type` enum in the schema). -/
inductive TxKind
  | earned
  | spent
  | reward
  | purchase
deriving DecidableEq, Repr, BEq

/-- One entry of `wallet.transactions`. -/
structure Transaction where
  kind : TxKind
  amount : Int
  description : String
  date : Int
deriving DecidableEq, Repr

/-- The `wallet` subdocument of a user. -/
structure Wallet where
  balance : Int
  transactions : List Transaction
deriving DecidableEq, Repr

/-- The `gamification` subdocument of a user (badges and streak are not
touched by any embedded operation and are omitted). -/
structure Gamification where
  level : Int
  experience : Int
  points : Int
deriving DecidableEq, Repr

/-- The `otp` subdocument: both fields are individually optional in the
schema, and `verifyOTP` checks each for JavaScript truthiness. -/
structure OtpData where
  code : Option String
  expiresAt : Option Int
deriving DecidableEq, Repr

/-- User roles (`role` enum in the schema). -/
inductive Role
  | farmer
  | student
  | dealer
  | admin
deriving DecidableEq, Repr

/-- Farming experience levels (`farmingProfile.experience` enum). -/
inductive Experience
  | beginner
  | intermediate
  | expert
deriving DecidableEq, Repr

/-- The `farmingProfile` subdocument (only the field read by
`isEligible`). -/
structure FarmingProfile where
  experience : Experience
deriving DecidableEq, Repr

/-- The `location` subdocument of a user (only the field read by
`isEligible`); `state` is optional in the schema. -/
structure UserLocation where
  state : Option String
deriving DecidableEq, Repr

/-- A user document, restricted to the fields the embedded operations read
or write. -/
structure User where
  role : Role
  otp : Option OtpData
  farmingProfile : FarmingProfile
  location : UserLocation
  gamification : Gamification
  wallet : Wallet
deriving DecidableEq, Repr

/-- `userSchema.methods.generateOTP`: stores the 6-digit code with an expiry
10 minutes from now, overwriting any prior code.  The random code is a
parameter; `now` is the generation time in milliseconds. -/
def generateOTP (u : User) (code : String) (now : Int) : User :=
  { u with otp := some { code := some code, expiresAt := some (now + 10 * 60 * 1000) } }

/-- `userSchema.methods.verifyOTP`: returns false if the otp subdocument,
its code, or its expiry is missing (JavaScript falsiness, so an empty-string
code also fails), false if `expiresAt < now`, else compares codes for exact
string equality.  It reads but never writes the stored otp. -/
def verifyOTP (u : User) (otp : String) (now : Int) : Bool :=
  match u.otp with
  | none => false
  | some o =>
    match o.code, o.expiresAt with
    | some c, some e =>
      if c = "" then false
      else if e < now then false
      else c == otp
    | _, _ => false

/-- `userSchema.methods.clearOTP`: removes the stored code and expiry. -/
def clearOTP (u : User) : User :=
  { u with otp := none }

/-- `userSchema.methods.addPoints`: adds the amount to points and experience,
recomputes `Math.floor(experience / 1000) + 1` and applies it only when it
exceeds the current level, adds the amount to the wallet balance, and pushes
one transaction of kind `earned`.  `Int.fdiv` is `Math.floor` division.
There is no validation of the amount. -/
def addPoints (u : User) (points : Int) (description : String) (now : Int) : User :=
  let g := u.gamification
  let g := { g with points := g.points + points, experience := g.experience + points }
  let newLevel := Int.fdiv g.experience 1000 + 1
  let g := if newLevel > g.level then { g with level := newLevel } else g
  let w := u.wallet
  let w := { w with
    balance := w.balance + points,
    transactions := w.transactions ++ [⟨TxKind.earned, points, description, now⟩] }
  { u with gamification := g, wallet := w }

/-- Participant statuses (`participants.status` enum). -/
inductive PStatus
  | pending
  | inProgress
  | completed
  | failed
deriving DecidableEq, Repr

/-- One entry of a participant's `submissions` list; the engine only ever
assigns the list wholesale, never reads the fields. -/
structure Submission where
  kind : String
  content : String
deriving DecidableEq, Repr

/-- One entry of `challenge.participants`. -/
structure Participant where
  userId : Nat
  joinedAt : Int
  completedAt : Option Int
  status : PStatus
  submissions : List Submission
  pointsEarned : Int
deriving DecidableEq, Repr

/-- The `statistics` subdocument of a challenge; `successRate` has no schema
default, so it is optional until first written. -/
structure Statistics where
  totalParticipants : Int
  completedParticipants : Int
  successRate : Option Rat
deriving DecidableEq, Repr

/-- The `eligibility.location` subdocument. -/
structure EligibilityLocation where
  states : List String
  districts : List String
deriving DecidableEq, Repr

/-- The `eligibility` subdocument of a challenge. -/
structure Eligibility where
  roles : List Role
  experience : Option Experience
  location : EligibilityLocation
deriving DecidableEq, Repr

/-- The schema defaults for `eligibility`: empty role and location lists,
but `experience` defaults to `'beginner'` — it is set, not absent, on every
challenge created without an explicit experience constraint. -/
def defaultEligibility : Eligibility :=
  { roles := [], experience := some Experience.beginner,
    location := { states := [], districts := [] } }

/-- A challenge document, restricted to the fields the embedded operations
read or write. -/
structure Challenge where
  title : String
  points : Int
  eligibility : Eligibility
  participants : List Participant
  isActive : Bool
  statistics : Statistics
deriving DecidableEq, Repr

/-- The participant lookup both models and routes perform:
`participants.find(p => p.userId.toString() === userId.toString())`. -/
def findParticipant (c : Challenge) (userId : Nat) : Option Participant :=
  c.participants.find? (fun p => p.userId == userId)

/-- The fresh participant entry pushed by `addParticipant`: status defaults
to `pending`, `joinedAt` to now, `submissions` to `[]`, `pointsEarned` to 0. -/
def freshParticipant (userId : Nat) (now : Int) : Participant :=
  { userId := userId, joinedAt := now, completedAt := none,
    status := PStatus.pending, submissions := [], pointsEarned := 0 }

/-- `challengeSchema.methods.addParticipant`: if no entry for this user
exists, pushes a pending entry and increments `totalParticipants`;
otherwise does nothing. -/
def addParticipant (c : Challenge) (userId : Nat) (now : Int) : Challenge :=
  match findParticipant c userId with
  | some _ => c
  | none =>
    { c with
      participants := c.participants ++ [freshParticipant userId now],
      statistics := { c.statistics with
        totalParticipants := c.statistics.totalParticipants + 1 } }

/-- The `completionRate` virtual: 0 when there are no participants, else
`completedParticipants / totalParticipants * 100`. -/
def completionRate (c : Challenge) : Rat :=
  if c.statistics.totalParticipants = 0 then 0
  else (c.statistics.completedParticipants : Rat) / (c.statistics.totalParticipants : Rat) * 100

/-- In-place mutation of the first list entry with the given user id, as
`participants.find` followed by field assignments does. -/
def updateFirst (ps : List Participant) (userId : Nat) (f : Participant → Participant) :
    List Participant :=
  match ps with
  | [] => []
  | p :: rest =>
    if p.userId == userId then f p :: rest
    else p :: updateFirst rest userId f

/-- The per-entry mutation performed inside `updateParticipantStatus`: set
the status, overwrite the submissions only when the given list is
non-empty, and on `completed` set `completedAt := now` and
`pointsEarned := challenge.points`. -/
def completeParticipant (points : Int) (status : PStatus)
    (submissions : List Submission) (now : Int) (p : Participant) : Participant :=
  let p := { p with status := status }
  let p := if 0 < submissions.length then { p with submissions := submissions } else p
  if status = PStatus.completed then
    { p with completedAt := some now, pointsEarned := points }
  else p

/-- `challengeSchema.methods.updateParticipantStatus`: if an entry for the
user exists, mutates it via `completeParticipant`, on `completed`
increments `completedParticipants`, then recomputes `successRate` from the
updated statistics.  If no entry exists, nothing changes. -/
def updateParticipantStatus (c : Challenge) (userId : Nat) (status : PStatus)
    (submissions : List Submission) (now : Int) : Challenge :=
  match findParticipant c userId with
  | none => c
  | some _ =>
    let stats :=
      if status = PStatus.completed then
        { c.statistics with
          completedParticipants := c.statistics.completedParticipants + 1 }
      else c.statistics
    let ps := updateFirst c.participants userId
      (completeParticipant c.points status submissions now)
    let c' := { c with participants := ps, statistics := stats }
    { c' with statistics := { c'.statistics with successRate := some (completionRate c') } }

/-- `challengeSchema.methods.isEligible`: role check (skipped when
`eligibility.roles` is empty), experience check (skipped when
`eligibility.experience` is unset; otherwise exact equality), and state
check (skipped when `eligibility.location.states` is empty; a user with no
state fails a non-empty state list, as `states.includes(undefined)` is
false). -/
def isEligible (c : Challenge) (u : User) : Bool :=
  if 0 < c.eligibility.roles.length ∧ u.role ∉ c.eligibility.roles then
    false
  else if c.eligibility.experience ≠ none ∧
          c.eligibility.experience ≠ some u.farmingProfile.experience then
    false
  else if 0 < c.eligibility.location.states.length ∧
          (∀ s ∈ c.eligibility.location.states, u.location.state ≠ some s) then
    false
  else
    true

/-- Typed failures of the join route (404 for a missing challenge is outside
the model). -/
inductive JoinError
  | challengeInactive
  | alreadyJoined
  | notEligible
deriving DecidableEq, Repr

/-- The `POST /api/challenges/:id/join` handler, after the 404 check: rejects
an inactive challenge, then an existing participant, then an ineligible
user; on success delegates to `addParticipant`. -/
def joinChallenge (c : Challenge) (u : User) (userId : Nat) (now : Int) :
    Except JoinError Challenge :=
  if !c.isActive then Except.error JoinError.challengeInactive
  else
    match findParticipant c userId with
    | some _ => Except.error JoinError.alreadyJoined
    | none =>
      if !isEligible c u then Except.error JoinError.notEligible
      else Except.ok (addParticipant c userId now)

/-- Typed failures of the submit route (404 and request validation are
outside the model). -/
inductive SubmitError
  | notParticipant
  | alreadyCompleted
deriving DecidableEq, Repr

/-- The `POST /api/challenges/:id/submit` handler, after the 404 check:
rejects a non-participant, then an already-completed entry; on success calls
`updateParticipantStatus(userId, 'completed', submissions)` and then awards
`challenge.points` via `addPoints` with description
`"Completed challenge: <title>"`. -/
def submitChallenge (c : Challenge) (u : User) (userId : Nat)
    (submissions : List Submission) (now : Int) :
    Except SubmitError (Challenge × User) :=
  match findParticipant c userId with
  | none => Except.error SubmitError.notParticipant
  | some p =>
    if p.status = PStatus.completed then Except.error SubmitError.alreadyCompleted
    else
      let c' := updateParticipantStatus c userId PStatus.completed submissions now
      let u' := addPoints u c.points ("Completed challenge: " ++ c.title) now
      Except.ok (c', u')

/-- The signed value of a transaction for the wallet-recovery invariant:
earned, reward and purchase add; spent subtracts. -/
def signedAmount (t : Transaction) : Int :=
  match t.kind with
  | TxKind.spent => -t.amount
  | _ => t.amount

/-- The wallet-recovery invariant: the balance equals the sum of the signed
transaction amounts. -/
def walletInvariant (u : User) : Prop :=
  u.wallet.balance = (u.wallet.transactions.map signedAmount).sum

/-- The level-derivation invariant: `level = floor(experience / 1000) + 1`. -/
def levelInvariant (u : User) : Prop :=
  u.gamification.level = Int.fdiv u.gamification.experience 1000 + 1

/-- A sequence of `addPoints` calls: each element is (amount, description,
timestamp). -/
def applyAwards (u : User) (calls : List (Int × String × Int)) : User :=
  match calls with
  | [] => u
  | (a, d, n) :: rest => applyAwards (addPoints u a d n) rest

/-! ### Concrete fixtures used by witnesses and counterexamples -/

/-- A freshly registered user with all schema defaults on the embedded
fields: level 1, experience 0, points 0, empty wallet, no stored OTP. -/
def testUser : User :=
  { role := Role.farmer, otp := none,
    farmingProfile := { experience := Experience.beginner },
    location := { state := some "Kerala" },
    gamification := { level := 1, experience := 0, points := 0 },
    wallet := { balance := 0, transactions := [] } }

/-- A user holding the OTP code `"123456"` that expires at time 1000. -/
def otpBoundaryUser : User :=
  { testUser with otp := some { code := some "123456", expiresAt := some 1000 } }

/-- An active challenge worth 100 points with default eligibility and no
participants. -/
def baseChallenge : Challenge :=
  { title := "Drip irrigation", points := 100,
    eligibility := defaultEligibility,
    participants := [], isActive := true,
    statistics := { totalParticipants := 0, completedParticipants := 0, successRate := none } }

/-- `baseChallenge` after user 1 joined (one pending participant). -/
def joinedChallenge : Challenge :=
  { baseChallenge with
    participants := [freshParticipant 1 0],
    statistics := { totalParticipants := 1, completedParticipants := 0, successRate := none } }

/-- `joinedChallenge` with the challenge deactivated afterwards. -/
def inactiveJoinedChallenge : Challenge :=
  { joinedChallenge with isActive := false }

/-- A challenge whose sole participant entry has already completed. -/
def completedChallenge : Challenge :=
  { baseChallenge with
    participants := [{ freshParticipant 1 0 with
      status := PStatus.completed, completedAt := some 5, pointsEarned := 100 }],
    statistics := { totalParticipants := 1, completedParticipants := 1, successRate := some 100 } }

/-! ### Helper lemmas -/

theorem addPoints_gamification (u : User) (a : Int) (d : String) (n : Int) :
    (addPoints u a d n).gamification.points = u.gamification.points + a ∧
    (addPoints u a d n).gamification.experience = u.gamification.experience + a := by
  simp only [addPoints]
  split <;> exact ⟨rfl, rfl⟩

theorem addPoints_wallet (u : User) (a : Int) (d : String) (n : Int) :
    (addPoints u a d n).wallet.balance = u.wallet.balance + a ∧
    (addPoints u a d n).wallet.transactions
      = u.wallet.transactions ++ [⟨TxKind.earned, a, d, n⟩] := by
  simp [addPoints]

theorem addPoints_walletInvariant {u : User} (h : walletInvariant u)
    (a : Int) (d : String) (n : Int) : walletInvariant (addPoints u a d n) := by
  have hb := (addPoints_wallet u a d n).1
  have ht := (addPoints_wallet u a d n).2
  simp only [walletInvariant] at h ⊢
  rw [hb, ht, List.map_append, List.sum_append, h]
  simp [signedAmount]

theorem applyAwards_walletInvariant :
    ∀ (calls : List (Int × String × Int)) (u : User), walletInvariant u →
      walletInvariant (applyAwards u calls) := by
  intro calls
  induction calls with
  | nil => intro u h; exact h
  | cons c rest ih =>
    intro u h
    exact ih (addPoints u c.1 c.2.1 c.2.2) (addPoints_walletInvariant h c.1 c.2.1 c.2.2)

theorem Int.fdiv_le_fdiv_of_le {a b : Int} (h : a ≤ b) :
    Int.fdiv a 1000 ≤ Int.fdiv b 1000 := by
  rw [Int.fdiv_eq_ediv a (by norm_num), Int.fdiv_eq_ediv b (by norm_num)]
  omega

theorem addPoints_level_le (u : User) (a : Int) (d : String) (n : Int) :
    u.gamification.level ≤ (addPoints u a d n).gamification.level := by
  simp only [addPoints]
  split
  all_goals simp
  all_goals omega

theorem addPoints_levelInvariant {u : User} (hinv : levelInvariant u)
    {a : Int} (ha : 0 ≤ a) (d : String) (n : Int) :
    levelInvariant (addPoints u a d n) := by
  have hmono : Int.fdiv u.gamification.experience 1000
      ≤ Int.fdiv (u.gamification.experience + a) 1000 :=
    Int.fdiv_le_fdiv_of_le (by omega)
  simp only [levelInvariant] at hinv ⊢
  simp only [addPoints]
  split
  all_goals simp
  all_goals omega

theorem applyAwards_level :
    ∀ (calls : List (Int × String × Int)) (u : User), levelInvariant u →
      (∀ c ∈ calls, 0 < c.1) →
      u.gamification.level ≤ (applyAwards u calls).gamification.level ∧
      levelInvariant (applyAwards u calls) := by
  intro calls
  induction calls with
  | nil => intro u hinv _; exact ⟨le_refl _, hinv⟩
  | cons c rest ih =>
    intro u hinv hpos
    have hc : 0 < c.1 := hpos c (by simp)
    have hstep := addPoints_levelInvariant hinv (le_of_lt hc) c.2.1 c.2.2
    have hrest := ih (addPoints u c.1 c.2.1 c.2.2) hstep
      (fun x hx => hpos x (by simp [hx]))
    refine ⟨le_trans (addPoints_level_le u c.1 c.2.1 c.2.2) ?_, hrest.2⟩
    exact hrest.1

/-! ### Claims about the gamification ledger -/

/-- C2: for every account whose wallet balance equals the signed sum of its
transaction log, after any sequence of `addPoints` calls the balance still
equals the signed sum, and each single call appends exactly one transaction
of kind `earned` whose amount is the awarded amount. -/
theorem ledger_wallet_invariant (u : User) (h : walletInvariant u) :
    (∀ calls : List (Int × String × Int), walletInvariant (applyAwards u calls)) ∧
    (∀ (a : Int) (d : String) (n : Int),
      (addPoints u a d n).wallet.transactions
        = u.wallet.transactions ++ [⟨TxKind.earned, a, d, n⟩]) := by
  constructor
  · intro calls
    exact applyAwards_walletInvariant calls u h
  · intro a d n
    exact (addPoints_wallet u a d n).2

/-- Witness for C2: the fresh user satisfies the wallet invariant, and it is
preserved across a concrete two-award sequence. -/
theorem ledger_wallet_invariant_witness :
    walletInvariant (applyAwards testUser [(100, "a", 1), (50, "b", 2)]) :=
  (ledger_wallet_invariant testUser (by simp [walletInvariant, testUser])).1
    [(100, "a", 1), (50, "b", 2)]

/-- C3: across any sequence of positive-amount `addPoints` calls on an
account whose level is derived from its experience, the level never
decreases and `level = floor(experience / 1000) + 1` holds after the
sequence (hence, the calls being arbitrary, after every call). -/
theorem ledger_level_monotone (u : User) (calls : List (Int × String × Int))
    (hinv : levelInvariant u) (hpos : ∀ c ∈ calls, 0 < c.1) :
    u.gamification.level ≤ (applyAwards u calls).gamification.level ∧
    levelInvariant (applyAwards u calls) :=
  applyAwards_level calls u hinv hpos

/-- Witness for C3: awarding 1000 then 500 points to the fresh user keeps
the level law; evaluating, the level rises to 2 and never drops. -/
theorem ledger_level_monotone_witness :
    testUser.gamification.level
      ≤ (applyAwards testUser [(1000, "a", 1), (500, "b", 2)]).gamification.level ∧
    levelInvariant (applyAwards testUser [(1000, "a", 1), (500, "b", 2)]) :=
  ledger_level_monotone testUser [(1000, "a", 1), (500, "b", 2)]
    (by simp [levelInvariant, testUser])
    (by intro c hc; simp at hc; rcases hc with h | h <;> simp [h])

/-- C4 counterexample: `addPoints` does not reject a non-positive amount.
Called with amount -5 on the fresh user (points 0, balance 0, empty log),
it succeeds and mutates the account: points and balance drop to -5 and a
transaction is appended, contradicting "the call fails and leaves the
account's points, experience, level, wallet balance and transaction log
unchanged". -/
theorem addPoints_rejects_nonpositive_counterexample :
    (addPoints testUser (-5) "d" 0).gamification.points = -5 ∧
    (addPoints testUser (-5) "d" 0).wallet.balance = -5 ∧
    (addPoints testUser (-5) "d" 0).wallet.transactions.length = 1 ∧
    testUser.gamification.points = 0 ∧
    testUser.wallet.balance = 0 ∧
    testUser.wallet.transactions.length = 0 := by
  refine ⟨?_, ?_, ?_, rfl, rfl, rfl⟩ <;> rfl

/-- C4 amended: `addPoints` performs no validation of the amount.  For every
amount, non-positive included, the call succeeds and adds the amount to
points, experience and wallet balance, and appends exactly one transaction
of kind `earned` with that amount; no input is rejected. -/
theorem addPoints_no_validation (u : User) (a : Int) (d : String) (n : Int) :
    (addPoints u a d n).gamification.points = u.gamification.points + a ∧
    (addPoints u a d n).gamification.experience = u.gamification.experience + a ∧
    (addPoints u a d n).wallet.balance = u.wallet.balance + a ∧
    (addPoints u a d n).wallet.transactions
      = u.wallet.transactions ++ [⟨TxKind.earned, a, d, n⟩] :=
  ⟨(addPoints_gamification u a d n).1, (addPoints_gamification u a d n).2,
   (addPoints_wallet u a d n).1, (addPoints_wallet u a d n).2⟩

/-! ### Claims about the OTP subsystem -/

/-- C5 counterexample: at `now == expiresAt` verification succeeds, because
the code only fails on `expiresAt < now`.  `otpBoundaryUser` stores code
`"123456"` expiring at time 1000; verifying the correct code exactly at
time 1000 returns true, contradicting "at now == expiresAt it fails". -/
theorem verifyOTP_boundary_counterexample :
    verifyOTP otpBoundaryUser "123456" 1000 = true ∧ ¬((1000 : Int) < 1000) := by
  exact ⟨rfl, by omega⟩

/-- C5 amended: verification returns true exactly when a non-empty code and
an expiry are stored, the current time is at or before the expiry
(`now ≤ expiresAt`: it fails only once `expiresAt < now`, so it still
succeeds at `now == expiresAt`), and the candidate equals the stored code
by exact string equality.  `verifyOTP` reads the account and returns a
boolean, so it never modifies the stored code or expiry.  In particular
verifying the correct code 11 minutes after generation fails and verifying
it 5 minutes after generation succeeds. -/
theorem verifyOTP_characterization (u : User) (cand : String) (now : Int) :
    (verifyOTP u cand now = true ↔
      ∃ o c e, u.otp = some o ∧ o.code = some c ∧ o.expiresAt = some e ∧
        c ≠ "" ∧ now ≤ e ∧ cand = c) ∧
    (∀ (code : String) (T : Int), code ≠ "" →
      verifyOTP (generateOTP u code T) code (T + 11 * 60 * 1000) = false ∧
      verifyOTP (generateOTP u code T) code (T + 5 * 60 * 1000) = true) := by
  constructor
  · rcases ho : u.otp with _ | o
    · simp [verifyOTP, ho]
    · rcases hc : o.code with _ | c
      · simp [verifyOTP, ho, hc]
      · rcases he : o.expiresAt with _ | e
        · simp [verifyOTP, ho, hc, he]
        · simp only [verifyOTP, ho, hc, he]
          constructor
          · intro h
            by_cases h1 : c = ""
            · simp [h1] at h
            · by_cases h2 : e < now
              · simp [h1, h2] at h
              · simp [h1, h2] at h
                exact ⟨o, c, e, rfl, hc, he, h1, by omega, h.symm⟩
          · rintro ⟨o', c', e', ho', hc', he', hne, hle, hcand⟩
            obtain rfl : o = o' := Option.some_inj.mp ho'
            rw [hc] at hc'
            obtain rfl : c = c' := Option.some_inj.mp hc'
            rw [he] at he'
            obtain rfl : e = e' := Option.some_inj.mp he'
            simp [hne, show ¬ (e < now) by omega, hcand]
  · intro code T hcode
    constructor
    · simp [generateOTP, verifyOTP, hcode]
    · simp [generateOTP, verifyOTP, hcode]

/-- Witness for C5 (amended): generating the code `"123456"` at time 0 for
the fresh user, verification succeeds 5 minutes later and the stored state
matches the characterization. -/
theorem verifyOTP_characterization_witness :
    verifyOTP (generateOTP testUser "123456" 0) "123456" (0 + 5 * 60 * 1000) = true :=
  ((verifyOTP_characterization testUser "123456" 0).2 "123456" 0 (by decide)).2

/-! ### Helper lemmas about the challenge engine -/

theorem find_updateFirst (uid : Nat) (f : Participant → Participant)
    (hf : ∀ q, (f q).userId = q.userId) :
    ∀ (ps : List Participant) (p : Participant),
      ps.find? (fun q => q.userId == uid) = some p →
      (updateFirst ps uid f).find? (fun q => q.userId == uid) = some (f p) := by
  intro ps
  induction ps with
  | nil => intro p h; simp at h
  | cons q rest ih =>
    intro p h
    by_cases hq : q.userId = uid
    · simp [hq] at h
      subst h
      simp [updateFirst, hq, hf]
    · simp [hq] at h
      simp [updateFirst, hq]
      exact ih p h

theorem completeParticipant_userId (points : Int) (status : PStatus)
    (subs : List Submission) (now : Int) (p : Participant) :
    (completeParticipant points status subs now p).userId = p.userId := by
  by_cases h1 : 0 < subs.length <;> by_cases h2 : status = PStatus.completed <;>
    simp [completeParticipant, h1, h2]

theorem completeParticipant_completed (points : Int)
    (subs : List Submission) (now : Int) (p : Participant) :
    completeParticipant points PStatus.completed subs now p
      = { p with status := PStatus.completed,
                 submissions := if 0 < subs.length then subs else p.submissions,
                 completedAt := some now, pointsEarned := points } := by
  by_cases h1 : 0 < subs.length <;> simp [completeParticipant, h1]

theorem updateParticipantStatus_completed (c : Challenge) (uid : Nat)
    (subs : List Submission) (now : Int) (p : Participant)
    (hp : findParticipant c uid = some p) :
    findParticipant (updateParticipantStatus c uid PStatus.completed subs now) uid
      = some { p with
          status := PStatus.completed,
          submissions := if 0 < subs.length then subs else p.submissions,
          completedAt := some now, pointsEarned := c.points } ∧
    (updateParticipantStatus c uid PStatus.completed subs now).statistics.completedParticipants
      = c.statistics.completedParticipants + 1 ∧
    (updateParticipantStatus c uid PStatus.completed subs now).statistics.totalParticipants
      = c.statistics.totalParticipants ∧
    (updateParticipantStatus c uid PStatus.completed subs now).statistics.successRate
      = some (((c.statistics.completedParticipants + 1 : Int) : Rat)
              / ((c.statistics.totalParticipants : Int) : Rat) * 100) := by
  have hfind := find_updateFirst uid (completeParticipant c.points PStatus.completed subs now)
    (completeParticipant_userId c.points PStatus.completed subs now)
    c.participants p (by simpa [findParticipant] using hp)
  refine ⟨?_, ?_, ?_, ?_⟩
  · simp only [updateParticipantStatus, hp]
    simp only [findParticipant]
    rw [hfind, completeParticipant_completed]
  · simp [updateParticipantStatus, hp]
  · simp [updateParticipantStatus, hp]
  · simp only [updateParticipantStatus, hp, completionRate]
    by_cases h0 : c.statistics.totalParticipants = 0
    · simp [h0]
    · simp [h0]

theorem submitChallenge_ok (c : Challenge) (u : User) (uid : Nat)
    (subs : List Submission) (now : Int) (p : Participant)
    (hp : findParticipant c uid = some p) (hnc : p.status ≠ PStatus.completed) :
    submitChallenge c u uid subs now =
      Except.ok (updateParticipantStatus c uid PStatus.completed subs now,
                 addPoints u c.points ("Completed challenge: " ++ c.title) now) := by
  simp [submitChallenge, hp, hnc]

/-! ### Claims about the challenge engine -/

/-- C1: for every challenge and account with an existing participant entry
whose status is not completed, a successful submit sets the entry's
submissions (the stored list of a not-yet-completed entry is empty in every
state reachable through join/submit alone, which the hypothesis allows; a
non-empty submitted list always overwrites), sets status to completed and
`completedAt` to now, sets `pointsEarned := challenge.points`, increments
`completedParticipants` by 1, leaves `totalParticipants` unchanged,
recomputes `successRate = completedParticipants/totalParticipants * 100`,
and then awards exactly `challenge.points` through the gamification ledger
with description `"Completed challenge: <title>"`, so points, experience
and wallet balance each increase by `challenge.points` and one `earned`
transaction is appended. -/
theorem submit_success_effects (c : Challenge) (u : User) (uid : Nat)
    (subs : List Submission) (now : Int) (p : Participant)
    (hp : findParticipant c uid = some p) (hnc : p.status ≠ PStatus.completed)
    (hs : p.submissions = [] ∨ subs ≠ []) :
    ∃ c' u',
      submitChallenge c u uid subs now = Except.ok (c', u') ∧
      findParticipant c' uid = some { p with
        status := PStatus.completed, submissions := subs,
        completedAt := some now, pointsEarned := c.points } ∧
      c'.statistics.completedParticipants = c.statistics.completedParticipants + 1 ∧
      c'.statistics.totalParticipants = c.statistics.totalParticipants ∧
      c'.statistics.successRate = some ((c'.statistics.completedParticipants : Rat)
          / (c'.statistics.totalParticipants : Rat) * 100) ∧
      u' = addPoints u c.points ("Completed challenge: " ++ c.title) now ∧
      u'.gamification.points = u.gamification.points + c.points ∧
      u'.gamification.experience = u.gamification.experience + c.points ∧
      u'.wallet.balance = u.wallet.balance + c.points ∧
      u'.wallet.transactions = u.wallet.transactions
        ++ [⟨TxKind.earned, c.points, "Completed challenge: " ++ c.title, now⟩] := by
  obtain ⟨hfind, hcomp, htot, hrate⟩ :=
    updateParticipantStatus_completed c uid subs now p hp
  have hsubs : (if 0 < subs.length then subs else p.submissions) = subs := by
    rcases hs with h | h
    · cases subs with
      | nil => simp [h]
      | cons s rest => simp
    · cases subs with
      | nil => exact absurd rfl h
      | cons s rest => simp
  refine ⟨updateParticipantStatus c uid PStatus.completed subs now,
          addPoints u c.points ("Completed challenge: " ++ c.title) now,
          submitChallenge_ok c u uid subs now p hp hnc, ?_, hcomp, htot, ?_,
          rfl,
          (addPoints_gamification u c.points _ now).1,
          (addPoints_gamification u c.points _ now).2,
          (addPoints_wallet u c.points _ now).1,
          (addPoints_wallet u c.points _ now).2⟩
  · rw [hfind, hsubs]
  · rw [hrate, hcomp, htot]

/-- Witness for C1: user 1 joined `baseChallenge` (100 points) and submits
one submission at time 7; the entry completes with `pointsEarned = 100`,
statistics become 1/1 with success rate 100, and the fresh user's balance
rises by 100. -/
theorem submit_success_effects_witness :
    ∃ c' u',
      submitChallenge joinedChallenge testUser 1 [⟨"photo", "x"⟩] 7 = Except.ok (c', u') ∧
      findParticipant c' 1 = some { freshParticipant 1 0 with
        status := PStatus.completed, submissions := [⟨"photo", "x"⟩],
        completedAt := some 7, pointsEarned := 100 } ∧
      c'.statistics.completedParticipants = joinedChallenge.statistics.completedParticipants + 1 ∧
      c'.statistics.totalParticipants = joinedChallenge.statistics.totalParticipants ∧
      c'.statistics.successRate = some ((c'.statistics.completedParticipants : Rat)
          / (c'.statistics.totalParticipants : Rat) * 100) ∧
      u' = addPoints testUser joinedChallenge.points
          ("Completed challenge: " ++ joinedChallenge.title) 7 ∧
      u'.gamification.points = testUser.gamification.points + joinedChallenge.points ∧
      u'.gamification.experience = testUser.gamification.experience + joinedChallenge.points ∧
      u'.wallet.balance = testUser.wallet.balance + joinedChallenge.points ∧
      u'.wallet.transactions = testUser.wallet.transactions
        ++ [⟨TxKind.earned, joinedChallenge.points,
             "Completed challenge: " ++ joinedChallenge.title, 7⟩] := by
  have h := submit_success_effects joinedChallenge testUser 1 [⟨"photo", "x"⟩] 7
    (freshParticipant 1 0) (by rfl) (by simp [freshParticipant]) (Or.inl rfl)
  simpa [joinedChallenge, baseChallenge] using h

/-- C9 (implicit): when submit succeeds with an empty submissions list, the
entry's previously stored submissions are left unchanged — the field is
overwritten only when the new list is non-empty — while all other
completion effects (status, `completedAt`, `pointsEarned`, the
`completedParticipants` increment, the `successRate` recomputation, and the
ledger award) still occur. -/
theorem submit_empty_submissions_frame (c : Challenge) (u : User) (uid : Nat)
    (now : Int) (p : Participant)
    (hp : findParticipant c uid = some p) (hnc : p.status ≠ PStatus.completed) :
    ∃ c' u',
      submitChallenge c u uid [] now = Except.ok (c', u') ∧
      findParticipant c' uid = some { p with
        status := PStatus.completed, submissions := p.submissions,
        completedAt := some now, pointsEarned := c.points } ∧
      c'.statistics.completedParticipants = c.statistics.completedParticipants + 1 ∧
      c'.statistics.totalParticipants = c.statistics.totalParticipants ∧
      c'.statistics.successRate = some ((c'.statistics.completedParticipants : Rat)
          / (c'.statistics.totalParticipants : Rat) * 100) ∧
      u' = addPoints u c.points ("Completed challenge: " ++ c.title) now ∧
      u'.wallet.balance = u.wallet.balance + c.points := by
  obtain ⟨hfind, hcomp, htot, hrate⟩ :=
    updateParticipantStatus_completed c uid [] now p hp
  refine ⟨updateParticipantStatus c uid PStatus.completed [] now,
          addPoints u c.points ("Completed challenge: " ++ c.title) now,
          submitChallenge_ok c u uid [] now p hp hnc, ?_, hcomp, htot, ?_,
          rfl, (addPoints_wallet u c.points _ now).1⟩
  · rw [hfind]
    simp
  · rw [hrate, hcomp, htot]

/-- Witness for C9: user 1 whose pending entry on `joinedChallenge` already
stores one submission submits an empty list at time 9; the stored
submission survives and completion effects occur. -/
theorem submit_empty_submissions_frame_witness :
    ∃ c' u',
      submitChallenge
        { joinedChallenge with
          participants := [{ freshParticipant 1 0 with submissions := [⟨"text", "old"⟩] }] }
        testUser 1 [] 9 = Except.ok (c', u') ∧
      findParticipant c' 1 = some { freshParticipant 1 0 with
        status := PStatus.completed, submissions := [⟨"text", "old"⟩],
        completedAt := some 9, pointsEarned := 100 } := by
  have h := submit_empty_submissions_frame
    { joinedChallenge with
      participants := [{ freshParticipant 1 0 with submissions := [⟨"text", "old"⟩] }] }
    testUser 1 9 { freshParticipant 1 0 with submissions := [⟨"text", "old"⟩] }
    (by rfl) (by simp [freshParticipant])
  obtain ⟨c', u', hok, hfind, -⟩ := h
  exact ⟨c', u', hok, hfind⟩

/-- C7: for every challenge and account whose participant entry has status
completed, submit always fails with `AlreadyCompleted`.  The route returns
before `updateParticipantStatus` or `addPoints` runs, so no document is
produced: the participant entry, the challenge statistics and the account's
ledger are untouched by construction in this pure embedding. -/
theorem submit_already_completed (c : Challenge) (u : User) (uid : Nat)
    (subs : List Submission) (now : Int) (p : Participant)
    (hp : findParticipant c uid = some p) (hc : p.status = PStatus.completed) :
    submitChallenge c u uid subs now = Except.error SubmitError.alreadyCompleted := by
  simp [submitChallenge, hp, hc]

/-- Witness for C7: resubmitting on `completedChallenge`, whose only entry
is completed, fails with `AlreadyCompleted`. -/
theorem submit_already_completed_witness :
    submitChallenge completedChallenge testUser 1 [⟨"photo", "y"⟩] 8
      = Except.error SubmitError.alreadyCompleted :=
  submit_already_completed completedChallenge testUser 1 [⟨"photo", "y"⟩] 8
    { freshParticipant 1 0 with
      status := PStatus.completed, completedAt := some 5, pointsEarned := 100 }
    (by rfl) rfl

/-- C6 counterexample: when the challenge is inactive AND the account has
already joined, the route rejects with `ChallengeInactive`, not
`AlreadyJoined` — the `isActive` check runs before the existing-participant
check.  `inactiveJoinedChallenge` is inactive and already holds an entry
for user 1, yet a second join by user 1 does not fail with
`AlreadyJoined`. -/
theorem join_already_joined_counterexample :
    joinChallenge inactiveJoinedChallenge testUser 1 5
      = Except.error JoinError.challengeInactive ∧
    joinChallenge inactiveJoinedChallenge testUser 1 5
      ≠ Except.error JoinError.alreadyJoined := by
  constructor
  · rfl
  · intro h
    simp [joinChallenge, inactiveJoinedChallenge, joinedChallenge, baseChallenge] at h

/-- C6 amended: join fails with `AlreadyJoined` whenever a participant
entry for this account already exists and the challenge is active; when the
challenge is inactive, join fails with `ChallengeInactive` even if the
account already joined.  A successful join appends exactly one participant
entry, with status `pending`, and increments `totalParticipants` by exactly
1, so `totalParticipants` increases by exactly 1 per distinct account. -/
theorem join_behavior (c : Challenge) (u : User) (uid : Nat) (now : Int) :
    (c.isActive = false → joinChallenge c u uid now = Except.error JoinError.challengeInactive) ∧
    (c.isActive = true → (∃ p, findParticipant c uid = some p) →
      joinChallenge c u uid now = Except.error JoinError.alreadyJoined) ∧
    (∀ c', joinChallenge c u uid now = Except.ok c' →
      c'.participants = c.participants ++ [freshParticipant uid now] ∧
      (freshParticipant uid now).status = PStatus.pending ∧
      c'.statistics.totalParticipants = c.statistics.totalParticipants + 1 ∧
      c'.statistics.completedParticipants = c.statistics.completedParticipants) := by
  refine ⟨?_, ?_, ?_⟩
  · intro hia
    simp [joinChallenge, hia]
  · rintro ha ⟨p, hp⟩
    simp [joinChallenge, ha, hp]
  · intro c' hok
    rcases hia : c.isActive with _ | _
    · simp [joinChallenge, hia] at hok
    · rcases hp : findParticipant c uid with _ | p
      · by_cases he : isEligible c u = true
        · simp [joinChallenge, hia, hp, he, addParticipant] at hok
          subst hok
          refine ⟨?_, rfl, ?_, ?_⟩ <;> simp [addParticipant, hp]
        · simp [joinChallenge, hia, hp,
            show isEligible c u = false by simpa using he] at hok
      · simp [joinChallenge, hia, hp] at hok

/-- Witness for C6 (amended): on the active `joinedChallenge`, a second
join by user 1 fails with `AlreadyJoined`; and joining `baseChallenge`
(no participants) succeeds, appending the single pending entry and raising
`totalParticipants` from 0 to 1. -/
theorem join_behavior_witness :
    joinChallenge joinedChallenge testUser 1 5 = Except.error JoinError.alreadyJoined ∧
    (addParticipant baseChallenge 1 5).participants
      = baseChallenge.participants ++ [freshParticipant 1 5] ∧
    (addParticipant baseChallenge 1 5).statistics.totalParticipants
      = baseChallenge.statistics.totalParticipants + 1 := by
  refine ⟨(join_behavior joinedChallenge testUser 1 5).2.1 rfl
      ⟨freshParticipant 1 0, rfl⟩, ?_, ?_⟩
  · exact ((join_behavior baseChallenge testUser 1 5).2.2
      (addParticipant baseChallenge 1 5) rfl).1
  · exact ((join_behavior baseChallenge testUser 1 5).2.2
      (addParticipant baseChallenge 1 5) rfl).2.2.1

/-- A challenge restricted to students, otherwise default eligibility. -/
def roleRestrictedChallenge : Challenge :=
  { baseChallenge with
    eligibility := { defaultEligibility with roles := [Role.student] } }

/-- A user identical to `testUser` but with expert farming experience. -/
def expertUser : User :=
  { testUser with farmingProfile := { experience := Experience.expert } }

/-- C8: `isEligible` returns true exactly when all three checks pass — a
non-empty `eligibility.roles` must contain the account's role, a set
`eligibility.experience` must exactly equal the account's
`farmingProfile.experience` (exact match, not a minimum), and a non-empty
`eligibility.location.states` must contain the account's `location.state`.
In particular an account whose role is not in a non-empty
`eligibility.roles` is rejected by join with `NotEligible` regardless of
the other fields. -/
theorem isEligible_characterization (c : Challenge) (u : User) (uid : Nat) (now : Int) :
    (isEligible c u = true ↔
      ((c.eligibility.roles = [] ∨ u.role ∈ c.eligibility.roles) ∧
       (∀ e, c.eligibility.experience = some e → u.farmingProfile.experience = e) ∧
       (c.eligibility.location.states = [] ∨
         ∃ s, u.location.state = some s ∧ s ∈ c.eligibility.location.states))) ∧
    (c.eligibility.roles ≠ [] → u.role ∉ c.eligibility.roles →
      c.isActive = true → findParticipant c uid = none →
      joinChallenge c u uid now = Except.error JoinError.notEligible) := by
  have hbool : isEligible c u = true ↔
      (¬ (0 < c.eligibility.roles.length ∧ u.role ∉ c.eligibility.roles) ∧
       ¬ (c.eligibility.experience ≠ none ∧
          c.eligibility.experience ≠ some u.farmingProfile.experience) ∧
       ¬ (0 < c.eligibility.location.states.length ∧
          (∀ s ∈ c.eligibility.location.states, u.location.state ≠ some s))) := by
    simp only [isEligible]
    split_ifs with h1 h2 h3 <;> simp_all
  constructor
  · rw [hbool]
    constructor
    · rintro ⟨h1, h2, h3⟩
      refine ⟨?_, ?_, ?_⟩
      · rcases Nat.eq_zero_or_pos c.eligibility.roles.length with hz | hpos
        · exact Or.inl (List.length_eq_zero.mp hz)
        · by_cases hm : u.role ∈ c.eligibility.roles
          · exact Or.inr hm
          · exact absurd ⟨hpos, hm⟩ h1
      · intro e he
        rcases not_and_or.mp h2 with h | h
        · simp [he] at h
        · rw [not_not, he] at h
          exact (Option.some_inj.mp h).symm
      · rcases Nat.eq_zero_or_pos c.eligibility.location.states.length with hz | hpos
        · exact Or.inl (List.length_eq_zero.mp hz)
        · right
          by_contra hno
          push_neg at hno
          exact h3 ⟨hpos, fun s hs heq => hno s heq hs⟩
    · rintro ⟨hr, he, hs⟩
      refine ⟨?_, ?_, ?_⟩
      · rintro ⟨hpos, hmem⟩
        rcases hr with h | h
        · rw [h] at hpos
          simp at hpos
        · exact hmem h
      · rintro ⟨hne, hneq⟩
        rcases hexp : c.eligibility.experience with _ | e
        · exact hne hexp
        · exact hneq (by rw [hexp, he e hexp])
      · rintro ⟨hpos, hall⟩
        rcases hs with h | h
        · rw [h] at hpos
          simp at hpos
        · obtain ⟨s, hstate, hmem⟩ := h
          exact hall s hmem hstate
  · intro hne hnotin ha hp
    have hel : isEligible c u = false := by
      simp only [isEligible]
      rw [if_pos ⟨List.length_pos.mpr hne, hnotin⟩]
    simp [joinChallenge, ha, hp, hel]

/-- Witness for C8: `roleRestrictedChallenge` admits only students, so the
farmer `testUser` — whose experience and location otherwise match the
defaults — is rejected by join with `NotEligible`. -/
theorem isEligible_characterization_witness :
    joinChallenge roleRestrictedChallenge testUser 1 0
      = Except.error JoinError.notEligible :=
  (isEligible_characterization roleRestrictedChallenge testUser 1 0).2
    (by decide) (by decide) rfl rfl

/-- C10 (implicit): the challenge schema gives `eligibility.experience` the
default `'beginner'`, so a challenge created without an explicit experience
constraint rejects every account whose `farmingProfile.experience` is not
exactly `'beginner'`; with the full eligibility defaults the roles and
states checks impose no restriction, and eligibility reduces to the
experience equality — the "no restriction" case of the experience check is
unreachable through the schema defaults. -/
theorem default_experience_restricts (c : Challenge) (u : User) :
    defaultEligibility.experience = some Experience.beginner ∧
    (c.eligibility.experience = defaultEligibility.experience →
      u.farmingProfile.experience ≠ Experience.beginner →
      isEligible c u = false) ∧
    (c.eligibility = defaultEligibility →
      (isEligible c u = true ↔ u.farmingProfile.experience = Experience.beginner)) := by
  refine ⟨rfl, ?_, ?_⟩
  · intro hexp hne
    simp only [isEligible]
    by_cases h1 : 0 < c.eligibility.roles.length ∧ u.role ∉ c.eligibility.roles
    · rw [if_pos h1]
    · rw [if_neg h1, if_pos]
      refine ⟨by simp [hexp, defaultEligibility], ?_⟩
      rw [hexp]
      intro h
      exact hne (Option.some_inj.mp h).symm
  · intro heq
    simp [isEligible, heq, defaultEligibility, eq_comm]

/-- Witness for C10: `baseChallenge` carries the schema-default
eligibility, and the expert user is rejected even though no explicit
experience constraint was ever written. -/
theorem default_experience_restricts_witness :
    isEligible baseChallenge expertUser = false :=
  (default_experience_restricts baseChallenge expertUser).2.1 rfl (by decide)
